import Mathlib

/-!
Shallow embedding of the fly-io-dist-systems node (Rust sources:
src/handler.rs, src/event_loop.rs, src/messages.rs, src/unique_id.rs).

Hash maps (std::collections::HashMap) are modelled as association lists in
which insertion replaces an existing binding; the code never iterates over a
map, so iteration order is irrelevant.  HashSet u32 is modelled as Finset Nat.
Machine integers are modelled as Nat or Int with explicit reduction mod 2 ^ w
at the operations where Rust wrapping can occur.
-/

namespace DistSys
def lookupA {α β : Type} [DecidableEq α] : List (α × β) → α → Option β
  | [], _ => none
  | (k, v) :: rest, key => if key = k then some v else lookupA rest key

def insertA {α β : Type} [DecidableEq α] : List (α × β) → α → β → List (α × β)
  | [], key, val => [(key, val)]
  | (k, v) :: rest, key, val =>
      if key = k then (k, val) :: rest else (k, v) :: insertA rest key val

def removeA {α β : Type} [DecidableEq α] : List (α × β) → α → List (α × β)
  | [], _ => []
  | (k, v) :: rest, key => if key = k then rest else (k, v) :: removeA rest key

theorem lookupA_insertA_self {α β : Type} [DecidableEq α]
    (m : List (α × β)) (k : α) (v : β) : lookupA (insertA m k v) k = some v := by
  induction m with
  | nil => simp [insertA, lookupA]
  | cons hd tl ih =>
      obtain ⟨k', v'⟩ := hd
      by_cases h : k = k' <;> simp [insertA, lookupA, h, ih]

theorem lookupA_insertA_ne {α β : Type} [DecidableEq α]
    (m : List (α × β)) (k x : α) (v : β) (hx : x ≠ k) :
    lookupA (insertA m k v) x = lookupA m x := by
  induction m with
  | nil => simp [insertA, lookupA, hx]
  | cons hd tl ih =>
      obtain ⟨k', v'⟩ := hd
      by_cases h : k = k'
      · subst h
        simp [insertA, lookupA, hx]
      · by_cases h' : x = k' <;> simp [insertA, lookupA, h, h', ih]

theorem mem_insertA {α β : Type} [DecidableEq α]
    (m : List (α × β)) (k : α) (v : β) (p : α × β)
    (h : p ∈ insertA m k v) : p = (k, v) ∨ p ∈ m := by
  induction m with
  | nil =>
      simp only [insertA, List.mem_singleton] at h
      exact Or.inl h
  | cons hd tl ih =>
      obtain ⟨k', v'⟩ := hd
      by_cases hk : k = k'
      · subst hk
        simp only [insertA] at h
        simp only [eq_self_iff_true, ite_true] at h
        rcases List.mem_cons.mp h with h | h
        · exact Or.inl (by simpa using h)
        · exact Or.inr (List.mem_cons_of_mem _ h)
      · simp only [insertA] at h
        rw [if_neg hk] at h
        rcases List.mem_cons.mp h with h | h
        · exact Or.inr (List.mem_cons.mpr (Or.inl h))
        · rcases ih h with h' | h'
          · exact Or.inl h'
          · exact Or.inr (List.mem_cons_of_mem _ h')

theorem mem_removeA {α β : Type} [DecidableEq α]
    (m : List (α × β)) (k : α) (p : α × β)
    (h : p ∈ removeA m k) : p ∈ m := by
  induction m with
  | nil => simp [removeA] at h
  | cons hd tl ih =>
      obtain ⟨k', v'⟩ := hd
      simp only [removeA] at h
      by_cases hk : k = k'
      · rw [if_pos hk] at h
        exact List.mem_cons_of_mem _ h
      · rw [if_neg hk] at h
        rcases List.mem_cons.mp h with h | h
        · exact List.mem_cons.mpr (Or.inl h)
        · exact List.mem_cons_of_mem _ (ih h)

theorem lookupA_mem {α β : Type} [DecidableEq α]
    (m : List (α × β)) (k : α) (v : β)
    (h : lookupA m k = some v) : (k, v) ∈ m := by
  induction m with
  | nil => simp [lookupA] at h
  | cons hd tl ih =>
      obtain ⟨k', v'⟩ := hd
      simp only [lookupA] at h
      by_cases hk : k = k'
      · rw [if_pos hk] at h
        subst hk
        obtain rfl : v' = v := by simpa using h
        exact List.mem_cons.mpr (Or.inl rfl)
      · rw [if_neg hk] at h
        exact List.mem_cons_of_mem _ (ih h)

/-- Broadcast values are u32; a HashSet u32 becomes a Finset Nat. -/
abbrev ValueSet := Finset Nat

/-- MessageBody from src/messages.rs, extended with the InformNewBroadcast and
InformNewBroadcastOk variants that src/handler.rs matches on (the handler
requires them; the enum in the checked-in messages.rs predates them). -/
inductive MessageBody : Type where
  | Init (msg_id : Nat) (node_id : String) (node_ids : List String)
  | Echo (msg_id : Nat) (echo : String)
  | Generate (msg_id : Nat)
  | Broadcast (msg_id : Nat) (message : Nat)
  | Read (msg_id : Nat)
  | Topology (msg_id : Nat) (topology : List (String × List String))
  | InitOk (in_reply_to : Nat)
  | EchoOk (msg_id : Nat) (in_reply_to : Nat) (echo : String)
  | GenerateOk (id : Int) (in_reply_to : Nat)
  | BroadcastOk (in_reply_to : Nat)
  | ReadOk (in_reply_to : Nat) (messages : ValueSet)
  | TopologyOk (in_reply_to : Nat)
  | InformNewBroadcast (msg_id : Nat) (messages : ValueSet)
  | InformNewBroadcastOk (in_reply_to : Nat)
  deriving DecidableEq

/-- Message envelope from src/messages.rs. -/
structure Message : Type where
  src : String
  dest : String
  body : MessageBody
  deriving DecidableEq

/-- HandlerError from src/handler.rs. -/
inductive HandlerError : Type where
  | UnprocessableMessage (s : String)
  | InvalidMachineId (s : String)
  | ReceivedMessageInInvalidState (s : String)
  deriving DecidableEq

/-! Snowflake identifiers, from src/unique_id.rs.  An i64 is represented by
its 64-bit two's-complement pattern, a Nat below 2 ^ 64; this keeps every
bit operation of the source a Nat operation.  toInt64 reads the pattern back
as the signed value. -/

/-- Signed value of a 64-bit pattern. -/
def toInt64 (pat : Nat) : Int :=
  if pat < 2 ^ 63 then (pat : Int) else (pat : Int) - 2 ^ 64

/-- Two's-complement 64-bit pattern of an integer (how an i64 stores it). -/
def toPat64 (x : Int) : Nat := (x % 2 ^ 64).toNat

/-- Function and_with of src/unique_id.rs: value & (2.pow(num_bits) - 1).
On patterns of i64 values the & is the Nat bitwise and. -/
def and_with (value : Nat) (num_bits : Nat) : Nat := value &&& (2 ^ num_bits - 1)

/-- Arithmetic shift right of a 64-bit pattern by n bits (0 < n < 64):
i64's >> copies the sign bit into the vacated high bits. -/
def asr64 (pat : Nat) (n : Nat) : Nat :=
  if pat < 2 ^ 63 then pat >>> n else pat >>> n + (2 ^ 64 - 2 ^ (64 - n))

namespace SnowflakeId

/-- Constant SnowflakeId::EPOCH_START_MS. -/
def EPOCH_START_MS : Int := 1288834974657

/-- Constant SnowflakeId::SEQUENCE_BITS. -/
def SEQUENCE_BITS : Nat := 12

end SnowflakeId

/-- SnowflakeId::new.  timestamp is the DateTime's milliseconds value
(timestamp.timestamp_millis()); the result is the 64-bit pattern of the
packed i64.  The i64 subtraction and the << 22 of the masked 42-bit field
stay inside i64 except for the sign bit, which the pattern keeps; the
field shifts cannot carry past bit 63, so the | needs no reduction. -/
def SnowflakeId.new (machine_id : Nat) (timestamp_ms : Int) (sequence : Nat) : Nat :=
  let off := toPat64 (timestamp_ms - SnowflakeId.EPOCH_START_MS)
  let ts := and_with off 42 <<< 22
  let mid := and_with machine_id 10 <<< 12
  let seq := and_with sequence SnowflakeId.SEQUENCE_BITS
  ts ||| mid ||| seq

/-- SnowflakeId::get, the packed value as an i64. -/
def SnowflakeId.get (pat : Nat) : Int := toInt64 pat

/-- SnowflakeId::machine_id: and_with(self.0 >> 12, 10) as u16. -/
def SnowflakeId.machine_id (pat : Nat) : Nat := and_with (asr64 pat 12) 10

/-- SnowflakeId::timestamp, as absolute milliseconds (the DateTime the
source rebuilds carries exactly this timestamp_millis value). -/
def SnowflakeId.timestamp (pat : Nat) : Int :=
  SnowflakeId.EPOCH_START_MS + (and_with (asr64 pat 22) 42 : Int)

/-- SnowflakeId::sequence: and_with(self.0, SEQUENCE_BITS) as u16. -/
def SnowflakeId.sequence (pat : Nat) : Nat := and_with pat SnowflakeId.SEQUENCE_BITS

/-- SnowflakeIdGenerator from src/unique_id.rs; both fields are u16. -/
structure SnowflakeIdGenerator : Type where
  machine_id : Nat
  sequence : Nat
  deriving DecidableEq

/-- SnowflakeIdGenerator::new. -/
def SnowflakeIdGenerator.new (machine_id : Nat) (sequence : Nat) : SnowflakeIdGenerator :=
  ⟨machine_id, sequence⟩

/-- SnowflakeIdGenerator::generate.  Utc::now() is an input here (now_ms, the
current milliseconds); self.sequence += 1 is the u16 increment, reduced
mod 2 ^ 16. -/
def SnowflakeIdGenerator.generate (g : SnowflakeIdGenerator) (now_ms : Int) :
    Nat × SnowflakeIdGenerator :=
  (SnowflakeId.new g.machine_id now_ms g.sequence,
    { g with sequence := (g.sequence + 1) % 2 ^ 16 })

/-- Repository test vector test_id_attributes / test_id_new: the pattern of
i64 1541815603606036480 decomposes into timestamp 1656432460105 ms,
sequence 0, machine id 378, and packing those reproduces the value. -/
theorem snowflake_test_vector :
    SnowflakeId.new 378 1656432460105 0 = 1541815603606036480 ∧
    SnowflakeId.timestamp 1541815603606036480 = 1656432460105 ∧
    SnowflakeId.sequence 1541815603606036480 = 0 ∧
    SnowflakeId.machine_id 1541815603606036480 = 378 ∧
    SnowflakeId.get 1541815603606036480 = 1541815603606036480 := by
  refine ⟨?_, ?_, ?_, ?_, ?_⟩ <;> decide

/-- Disjoint bit ranges: or-ing a low block below 2 ^ k onto a multiple of
2 ^ k is addition. -/
theorem mul_pow_lor_eq_add (x b k : Nat) (hb : b < 2 ^ k) :
    (x * 2 ^ k) ||| b = x * 2 ^ k + b := by
  apply Nat.eq_of_testBit_eq
  intro j
  rw [Nat.testBit_or, mul_comm x (2 ^ k), Nat.testBit_mul_pow_two,
    Nat.testBit_mul_pow_two_add x hb j]
  by_cases hj : j < k
  · simp [hj, Nat.not_le.mpr hj]
  · have hbj : b.testBit j = false :=
      Nat.testBit_lt_two_pow
        (lt_of_lt_of_le hb (Nat.pow_le_pow_right (by norm_num) (Nat.not_lt.mp hj)))
    simp [hj, Nat.not_lt.mp hj, hbj]

/-- Masking with 2 ^ n - 1 is reduction mod 2 ^ n. -/
theorem and_with_eq_mod (x n : Nat) : and_with x n = x % 2 ^ n :=
  Nat.and_pow_two_sub_one_eq_mod x n

/-- The reduced 42-bit timestamp field seen by SnowflakeId.new. -/
theorem toPat64_mod_42 (x : Int) : toPat64 x % 2 ^ 42 = (x % 2 ^ 42).toNat := by
  unfold toPat64
  have h0 : (0 : Int) ≤ x % 2 ^ 64 := Int.emod_nonneg _ (by norm_num)
  rw [show ((2 : Int) ^ 64) = 18446744073709551616 from rfl] at h0 ⊢
  rw [show ((2 : Int) ^ 42) = 4398046511104 from rfl]
  rw [show ((2 : Nat) ^ 42) = 4398046511104 from rfl]
  omega

/-- Arithmetic form of the packed id: the three masked fields occupy disjoint
bit ranges, so the ors are sums. -/
theorem SnowflakeId.new_eq (machine_id : Nat) (timestamp_ms : Int) (sequence : Nat) :
    SnowflakeId.new machine_id timestamp_ms sequence =
      ((timestamp_ms - SnowflakeId.EPOCH_START_MS) % 2 ^ 42).toNat * 2 ^ 22 +
        machine_id % 2 ^ 10 * 2 ^ 12 + sequence % 2 ^ 12 := by
  simp only [SnowflakeId.new, SnowflakeId.SEQUENCE_BITS, and_with_eq_mod,
    Nat.shiftLeft_eq, toPat64_mod_42]
  set a := ((timestamp_ms - SnowflakeId.EPOCH_START_MS) % 2 ^ 42).toNat with ha
  have h1 : machine_id % 2 ^ 10 * 2 ^ 12 < 2 ^ 22 := by
    have := Nat.mod_lt machine_id (show 0 < 2 ^ 10 by norm_num)
    calc machine_id % 2 ^ 10 * 2 ^ 12 ≤ (2 ^ 10 - 1) * 2 ^ 12 := by
          exact Nat.mul_le_mul_right _ (by omega)
      _ < 2 ^ 22 := by norm_num
  rw [mul_pow_lor_eq_add _ _ _ h1]
  have h2 : a * 2 ^ 22 + machine_id % 2 ^ 10 * 2 ^ 12 =
      (a * 2 ^ 10 + machine_id % 2 ^ 10) * 2 ^ 12 := by ring
  rw [h2, mul_pow_lor_eq_add _ _ _ (Nat.mod_lt sequence (by norm_num))]

/-- Bound on the timestamp field. -/
theorem toNat_emod_42_lt (x : Int) : (x % 2 ^ 42).toNat < 2 ^ 42 := by
  have h0 : (0 : Int) ≤ x % 2 ^ 42 := Int.emod_nonneg _ (by norm_num)
  have h1 : x % 2 ^ 42 < 2 ^ 42 := Int.emod_lt_of_pos _ (by norm_num)
  omega

/-- The sequence accessor recovers the packed counter mod 2 ^ 12,
independently of the other fields. -/
theorem SnowflakeId.sequence_new (machine_id : Nat) (timestamp_ms : Int) (sequence : Nat) :
    SnowflakeId.sequence (SnowflakeId.new machine_id timestamp_ms sequence) =
      sequence % 2 ^ 12 := by
  unfold SnowflakeId.sequence SnowflakeId.SEQUENCE_BITS
  rw [and_with_eq_mod, SnowflakeId.new_eq]
  have h1 : machine_id % 2 ^ 10 < 2 ^ 10 := Nat.mod_lt _ (by norm_num)
  have h2 : sequence % 2 ^ 12 < 2 ^ 12 := Nat.mod_lt _ (by norm_num)
  omega

/-- The machine_id accessor recovers the packed machine id mod 2 ^ 10,
independently of the other fields (for either sign of the packed i64). -/
theorem SnowflakeId.machine_id_new (machine_id : Nat) (timestamp_ms : Int) (sequence : Nat) :
    SnowflakeId.machine_id (SnowflakeId.new machine_id timestamp_ms sequence) =
      machine_id % 2 ^ 10 := by
  unfold SnowflakeId.machine_id asr64
  rw [and_with_eq_mod, SnowflakeId.new_eq]
  simp only [Nat.shiftRight_eq_div_pow]
  have h1 : machine_id % 2 ^ 10 < 2 ^ 10 := Nat.mod_lt _ (by norm_num)
  have h2 : sequence % 2 ^ 12 < 2 ^ 12 := Nat.mod_lt _ (by norm_num)
  have h3 := toNat_emod_42_lt (timestamp_ms - SnowflakeId.EPOCH_START_MS)
  set a := ((timestamp_ms - SnowflakeId.EPOCH_START_MS) % 2 ^ 42).toNat
  split
  all_goals
    rw [show ((2 : Nat) ^ 42) = 4398046511104 from rfl] at h3
    rw [show ((2 : Nat) ^ 10) = 1024 from rfl] at h1 ⊢
    rw [show ((2 : Nat) ^ 12) = 4096 from rfl] at h2 ⊢
    rw [show ((2 : Nat) ^ 22) = 4194304 from rfl]
    omega

/-- The timestamp accessor recovers the epoch plus the packed 42-bit offset,
independently of the other fields (for either sign of the packed i64). -/
theorem SnowflakeId.timestamp_new (machine_id : Nat) (timestamp_ms : Int) (sequence : Nat) :
    SnowflakeId.timestamp (SnowflakeId.new machine_id timestamp_ms sequence) =
      SnowflakeId.EPOCH_START_MS + (timestamp_ms - SnowflakeId.EPOCH_START_MS) % 2 ^ 42 := by
  unfold SnowflakeId.timestamp asr64
  rw [and_with_eq_mod, SnowflakeId.new_eq]
  simp only [Nat.shiftRight_eq_div_pow]
  have h1 : machine_id % 2 ^ 10 < 2 ^ 10 := Nat.mod_lt _ (by norm_num)
  have h2 : sequence % 2 ^ 12 < 2 ^ 12 := Nat.mod_lt _ (by norm_num)
  have h3 := toNat_emod_42_lt (timestamp_ms - SnowflakeId.EPOCH_START_MS)
  have h0 : (0 : Int) ≤ (timestamp_ms - SnowflakeId.EPOCH_START_MS) % 2 ^ 42 :=
    Int.emod_nonneg _ (by norm_num)
  set a := ((timestamp_ms - SnowflakeId.EPOCH_START_MS) % 2 ^ 42).toNat with ha
  have key : (a * 2 ^ 22 + machine_id % 2 ^ 10 * 2 ^ 12 + sequence % 2 ^ 12) / 2 ^ 22
      % 2 ^ 42 = a ∧
      ((a * 2 ^ 22 + machine_id % 2 ^ 10 * 2 ^ 12 + sequence % 2 ^ 12) / 2 ^ 22 +
        (2 ^ 64 - 2 ^ (64 - 22))) % 2 ^ 42 = a := by
    rw [show ((2 : Nat) ^ 42) = 4398046511104 from rfl] at h3 ⊢
    rw [show ((2 : Nat) ^ 10) = 1024 from rfl] at h1
    rw [show ((2 : Nat) ^ 12) = 4096 from rfl] at h2
    rw [show ((2 : Nat) ^ 22) = 4194304 from rfl]
    rw [show ((2 : Nat) ^ 64) = 18446744073709551616 from rfl]
    constructor <;> omega
  split
  · rw [key.1]
    omega
  · rw [key.2]
    omega

/-! Handlers, from src/handler.rs.  A Rust method taking &mut self and
returning Result<(), HandlerError>, whose only side effect is send_message,
becomes a function returning a StepResult: the state after the call, the
messages passed to send_message in order, and the returned error if any.
Every error path of the source returns before mutating or sending, so an
error result always carries the unchanged state and an empty send list. -/

/-- Outcome of one handle_message call. -/
structure StepResult (σ : Type) : Type where
  state : σ
  sent : List Message
  error : Option HandlerError
  deriving DecidableEq

/-- UninitHandler. -/
structure UninitHandler : Type where
  machine_id : Option Nat
  deriving DecidableEq

/-- UninitHandler::new. -/
def UninitHandler.new : UninitHandler := ⟨none⟩

/-- Value of a run of decimal digits, most significant first. -/
def digitsVal (ds : List Char) : Nat :=
  ds.foldl (fun acc c => acc * 10 + (c.toNat - '0'.toNat)) 0

/-- Rust str::parse::<u16>: an optional leading '+', then one or more ASCII
digits, value below 2 ^ 16; anything else fails. -/
def parse_u16 (cs : List Char) : Option Nat :=
  let ds := match cs with
    | '+' :: rest => rest
    | other => other
  if ds = [] then none
  else if ds.all Char.isDigit then
    if digitsVal ds < 2 ^ 16 then some (digitsVal ds) else none
  else none

/-- Function parse_node_id of src/handler.rs: reject strings shorter than two
bytes, then parse everything after the first byte as a u16.  The first byte is
never compared against 'n'.  Node id strings are taken as ASCII, so the byte
length and byte slicing of the source coincide with characters here. -/
def parse_node_id (node_id : String) : Except HandlerError Nat :=
  if node_id.length < 2 then .error (.InvalidMachineId node_id)
  else
    match parse_u16 (node_id.data.drop 1) with
    | some v => .ok v
    | none => .error (.InvalidMachineId node_id)

/-- UninitHandler::handle_message (impl Handler for UninitHandler). -/
def UninitHandler.handle_message (s : UninitHandler) (message : Message) :
    StepResult UninitHandler :=
  match message.body with
  | .Init msg_id node_id _ =>
      match parse_node_id node_id with
      | .error e => ⟨s, [], some e⟩
      | .ok machine_id =>
          if s.machine_id.isSome then
            ⟨s, [], some (.ReceivedMessageInInvalidState
              "uninitialized handler already received an init message")⟩
          else
            ⟨⟨some machine_id⟩,
              [⟨message.dest, message.src, .InitOk msg_id⟩], none⟩
  | _ => ⟨s, [], some (.UnprocessableMessage
      "we can only handle init. should probably add the message type to this error string")⟩

/-- PendingSentMessages. -/
inductive PendingSentMessages : Type where
  | InformBroadcast (messages : ValueSet) (dst : String)
  deriving DecidableEq

/-- InitializedHandler state. -/
structure InitializedHandler : Type where
  unique_id_generator : SnowflakeIdGenerator
  node_id : String
  neighbors : List String
  current_msg_id : Nat
  messages : ValueSet
  known_messages_to_neighbors : List (String × ValueSet)
  pending_messages_sent : List (Nat × PendingSentMessages)
  deriving DecidableEq

/-- Constant InitializedHandler::NUM_RANDOM_NEIGHBORS_TO_INFORM. -/
def NUM_RANDOM_NEIGHBORS_TO_INFORM : Nat := 10

/-- InitializedHandler::new. -/
def InitializedHandler.new (machine_id : Nat) : InitializedHandler where
  unique_id_generator := SnowflakeIdGenerator.new machine_id 0
  node_id := "n" ++ toString machine_id
  neighbors := []
  current_msg_id := 0
  messages := ∅
  known_messages_to_neighbors := []
  pending_messages_sent := []

/-- InitializedHandler::handle_topology: remove this node's entry from the
delivered map; if absent, return unchanged; otherwise replace the neighbor
list and insert an empty knowledge entry for every new neighbor (existing
entries for other neighbors are left in place). -/
def InitializedHandler.handle_topology (s : InitializedHandler)
    (topology : List (String × List String)) : InitializedHandler :=
  match lookupA topology s.node_id with
  | none => s
  | some neighbors =>
      { s with
        neighbors := neighbors
        known_messages_to_neighbors :=
          neighbors.foldl (fun m neighbor => insertA m neighbor ∅)
            s.known_messages_to_neighbors }

/-- Loop body of InitializedHandler::send_inform_broadcast_to_neighbors for
one selected neighbor.  entry(neighbor).or_default() inserts an empty
knowledge set when the neighbor has none; an empty difference skips the
neighbor before the counter increment; otherwise the packet is sent, a
pending record is stored unless the key is already occupied (the occupied
case only logs), and current_msg_id gets the wrapping u32 increment. -/
def gossipStep (acc : InitializedHandler × List Message) (neighbor : String) :
    InitializedHandler × List Message :=
  let s := acc.1
  let out := acc.2
  let known_by_other := (lookupA s.known_messages_to_neighbors neighbor).getD ∅
  let s :=
    match lookupA s.known_messages_to_neighbors neighbor with
    | some _ => s
    | none =>
        { s with known_messages_to_neighbors :=
            insertA s.known_messages_to_neighbors neighbor ∅ }
  let messages := s.messages \ known_by_other
  if messages = ∅ then (s, out)
  else
    let body := MessageBody.InformNewBroadcast s.current_msg_id messages
    let message : Message := ⟨s.node_id, neighbor, body⟩
    let pending :=
      match lookupA s.pending_messages_sent s.current_msg_id with
      | some _ => s.pending_messages_sent
      | none => insertA s.pending_messages_sent s.current_msg_id
          (.InformBroadcast messages neighbor)
    ({ s with
        pending_messages_sent := pending
        current_msg_id := (s.current_msg_id + 1) % 2 ^ 32 },
      out ++ [message])

/-- The sampling contract of choose_multiple(rng, 10) on the neighbor list:
the chosen list picks pairwise distinct positions of neighbors (without
replacement), exactly min 10 (neighbors.length) many. -/
def IsRandomChoice (chosen neighbors : List String) : Prop :=
  ∃ idxs : List (Fin neighbors.length),
    idxs.Nodup ∧ chosen = idxs.map neighbors.get ∧
    idxs.length = min NUM_RANDOM_NEIGHBORS_TO_INFORM neighbors.length

/-- InitializedHandler::send_inform_broadcast_to_neighbors, parametrized by
the randomly chosen neighbor list. -/
def InitializedHandler.send_inform_broadcast_to_neighbors
    (s : InitializedHandler) (chosen : List String) :
    InitializedHandler × List Message :=
  chosen.foldl gossipStep (s, [])

/-- InitializedHandler::handle_gossip_timer. -/
def InitializedHandler.handle_gossip_timer (s : InitializedHandler)
    (chosen : List String) : InitializedHandler × List Message :=
  s.send_inform_broadcast_to_neighbors chosen

/-- InitializedHandler::handle_inform_new_broadcast. -/
def InitializedHandler.handle_inform_new_broadcast (s : InitializedHandler)
    (message_src : String) (msg_id : Nat) (messages : ValueSet) :
    InitializedHandler × List Message :=
  let s := { s with messages := s.messages ∪ messages }
  let s :=
    match lookupA s.known_messages_to_neighbors message_src with
    | some entry =>
        { s with known_messages_to_neighbors :=
            insertA s.known_messages_to_neighbors message_src (entry ∪ messages) }
    | none =>
        { s with known_messages_to_neighbors :=
            insertA s.known_messages_to_neighbors message_src messages }
  (s, [⟨s.node_id, message_src, .InformNewBroadcastOk msg_id⟩])

/-- InitializedHandler::handle_pending_message: fold an acknowledged pending
record into the knowledge entry of its destination; and_modify(..).or_default()
inserts an empty entry (not the record's values) when the destination has no
entry. -/
def InitializedHandler.handle_pending_message (s : InitializedHandler)
    (message : PendingSentMessages) : InitializedHandler :=
  match message with
  | .InformBroadcast messages dst =>
      match lookupA s.known_messages_to_neighbors dst with
      | some known_messages =>
          { s with known_messages_to_neighbors :=
              insertA s.known_messages_to_neighbors dst (known_messages ∪ messages) }
      | none =>
          { s with known_messages_to_neighbors :=
              insertA s.known_messages_to_neighbors dst ∅ }

/-- InitializedHandler::handle_response: a miss only logs. -/
def InitializedHandler.handle_response (s : InitializedHandler) (msg_id : Nat) :
    InitializedHandler :=
  match lookupA s.pending_messages_sent msg_id with
  | none => s
  | some pending_message =>
      InitializedHandler.handle_pending_message
        { s with pending_messages_sent := removeA s.pending_messages_sent msg_id }
        pending_message

/-- InitializedHandler::handle_message (impl Handler for InitializedHandler).
now_ms stands for Utc::now() inside the Generate arm. -/
def InitializedHandler.handle_message (now_ms : Int) (s : InitializedHandler)
    (message : Message) : StepResult InitializedHandler :=
  match message.body with
  | .Init _ _ _ =>
      ⟨s, [], some (.UnprocessableMessage
        "initialized handler shouldn't accept init mesage")⟩
  | .Echo msg_id echo =>
      ⟨s, [⟨message.dest, message.src, .EchoOk msg_id msg_id echo⟩], none⟩
  | .Generate msg_id =>
      let r := s.unique_id_generator.generate now_ms
      ⟨{ s with unique_id_generator := r.2 },
        [⟨message.dest, message.src, .GenerateOk (SnowflakeId.get r.1) msg_id⟩], none⟩
  | .Broadcast msg_id value =>
      ⟨{ s with messages := insert value s.messages },
        [⟨message.dest, message.src, .BroadcastOk msg_id⟩], none⟩
  | .Read msg_id =>
      ⟨s, [⟨message.dest, message.src, .ReadOk msg_id s.messages⟩], none⟩
  | .Topology msg_id topology =>
      ⟨s.handle_topology topology,
        [⟨message.dest, message.src, .TopologyOk msg_id⟩], none⟩
  | .InitOk _ => ⟨s, [], none⟩
  | .EchoOk _ _ _ => ⟨s, [], none⟩
  | .GenerateOk _ _ => ⟨s, [], none⟩
  | .BroadcastOk _ => ⟨s, [], none⟩
  | .ReadOk _ _ => ⟨s, [], none⟩
  | .TopologyOk _ => ⟨s, [], none⟩
  | .InformNewBroadcast msg_id messages =>
      let r := s.handle_inform_new_broadcast message.src msg_id messages
      ⟨r.1, r.2, none⟩
  | .InformNewBroadcastOk in_reply_to =>
      ⟨s.handle_response in_reply_to, [], none⟩

/-! Event loop, from src/event_loop.rs. -/

/-- Outcome of handle_single_line: the serde unwrap panics on a line that
fails to decode, which terminates the node process; otherwise the loop
continues with the updated handler, errors having been printed to stderr. -/
inductive LineOutcome : Type where
  | panicked
  | continued (handler : InitializedHandler) (out : List Message)
  deriving DecidableEq

/-- Function handle_single_line of src/event_loop.rs, with the decode result
of the line as input (none models a line serde_json::from_str rejects). -/
def handle_single_line (now_ms : Int) (decoded : Option Message)
    (handler : InitializedHandler) : LineOutcome :=
  match decoded with
  | none => .panicked
  | some message =>
      let r := InitializedHandler.handle_message now_ms handler message
      .continued r.state r.sent

/-- Repeated SnowflakeIdGenerator::generate calls, one per supplied
Utc::now() reading, returning the ids in call order. -/
def SnowflakeIdGenerator.generateAll (g : SnowflakeIdGenerator) :
    List Int → List Nat
  | [] => []
  | now :: rest =>
      let r := g.generate now
      r.1 :: r.2.generateAll rest

/-- C4: a packed snowflake id equals, as an i64, the epoch-relative timestamp
masked to 42 bits shifted left 22, or the machine id masked to 10 bits
shifted left 12, or the sequence masked to 12 bits (stated in the equivalent
arithmetic form, the three fields occupying disjoint bit ranges); and for
machine_id < 1024, sequence < 4096 and a timestamp whose offset from the
epoch fits in 42 bits, the machine_id(), sequence() and timestamp() accessors
recover exactly the original values from the packed id. -/
theorem snowflake_pack_roundtrip (machine_id sequence : Nat) (timestamp_ms : Int)
    (hm : machine_id < 1024) (hs : sequence < 4096)
    (h0 : 0 ≤ timestamp_ms - SnowflakeId.EPOCH_START_MS)
    (h1 : timestamp_ms - SnowflakeId.EPOCH_START_MS < 2 ^ 42) :
    SnowflakeId.new machine_id timestamp_ms sequence =
      (timestamp_ms - SnowflakeId.EPOCH_START_MS).toNat * 2 ^ 22 +
        machine_id * 2 ^ 12 + sequence ∧
    SnowflakeId.machine_id (SnowflakeId.new machine_id timestamp_ms sequence) =
      machine_id ∧
    SnowflakeId.sequence (SnowflakeId.new machine_id timestamp_ms sequence) =
      sequence ∧
    SnowflakeId.timestamp (SnowflakeId.new machine_id timestamp_ms sequence) =
      timestamp_ms := by
  have hm' : machine_id % 2 ^ 10 = machine_id :=
    Nat.mod_eq_of_lt (lt_of_lt_of_le hm (by norm_num))
  have hs' : sequence % 2 ^ 12 = sequence :=
    Nat.mod_eq_of_lt (lt_of_lt_of_le hs (by norm_num))
  have he : (timestamp_ms - SnowflakeId.EPOCH_START_MS) % 2 ^ 42 =
      timestamp_ms - SnowflakeId.EPOCH_START_MS := Int.emod_eq_of_lt h0 h1
  refine ⟨?_, ?_, ?_, ?_⟩
  · rw [SnowflakeId.new_eq, he, hm', hs']
  · rw [SnowflakeId.machine_id_new, hm']
  · rw [SnowflakeId.sequence_new, hs']
  · rw [SnowflakeId.timestamp_new, he]
    omega

/-- Witness for snowflake_pack_roundtrip at the repository's own test vector. -/
theorem snowflake_pack_roundtrip_witness :
    SnowflakeId.machine_id (SnowflakeId.new 378 1656432460105 0) = 378 ∧
    SnowflakeId.sequence (SnowflakeId.new 378 1656432460105 0) = 0 ∧
    SnowflakeId.timestamp (SnowflakeId.new 378 1656432460105 0) = 1656432460105 := by
  have h := snowflake_pack_roundtrip 378 0 1656432460105
    (by norm_num) (by norm_num) (by decide) (by decide)
  exact ⟨h.2.1, h.2.2.1, h.2.2.2⟩

/-- C9 counterexample: a generator configured with the legal u16 machine id
1024 produces ids whose machine_id field is 0, not 1024, because new masks
the machine id to 10 bits. -/
theorem generator_machine_id_cex :
    SnowflakeId.machine_id ((SnowflakeIdGenerator.new 1024 0).generate 1656432460105).1
      = 0 ∧ (0 : Nat) ≠ 1024 := by
  constructor
  · rw [show ((SnowflakeIdGenerator.new 1024 0).generate 1656432460105).1 =
      SnowflakeId.new 1024 1656432460105 0 from rfl, SnowflakeId.machine_id_new]
    decide
  · decide

/-- Helper: generateAll produces one id per supplied timestamp. -/
theorem generateAll_length (g : SnowflakeIdGenerator) (l : List Int) :
    (g.generateAll l).length = l.length := by
  induction l generalizing g with
  | nil => rfl
  | cons now rest ih => simp [SnowflakeIdGenerator.generateAll, ih]

/-- C9 as amended: for one generator whose u16 counter starts at s₀ < 2 ^ 16,
the i-th generate() call carries sequence field (s₀ + i) mod 4096 (the
counter increments by one per call and is never reset per millisecond,
whatever timestamps the calls observe), and every id carries the same
machine_id field, the configured machine id reduced mod 1024. -/
theorem generator_sequence_machine (g : SnowflakeIdGenerator) (now_list : List Int)
    (hseq : g.sequence < 2 ^ 16) (i : Nat) (hi : i < now_list.length) :
    (g.generateAll now_list).length = now_list.length ∧
    SnowflakeId.sequence ((g.generateAll now_list).getD i 0) =
      (g.sequence + i) % 2 ^ 12 ∧
    SnowflakeId.machine_id ((g.generateAll now_list).getD i 0) =
      g.machine_id % 2 ^ 10 := by
  induction now_list generalizing g i with
  | nil => simp at hi
  | cons now rest ih =>
      refine ⟨generateAll_length _ _, ?_, ?_⟩
      · cases i with
        | zero =>
            simp only [SnowflakeIdGenerator.generateAll, List.getD_cons_zero]
            rw [show (g.generate now).1 = SnowflakeId.new g.machine_id now g.sequence
              from rfl, SnowflakeId.sequence_new, Nat.add_zero]
        | succ j =>
            simp only [SnowflakeIdGenerator.generateAll, List.getD_cons_succ]
            have hj : j < rest.length := by simpa using hi
            have hg : ((g.generate now).2).sequence < 2 ^ 16 :=
              Nat.mod_lt _ (by norm_num)
            rw [(ih (g := (g.generate now).2) hg j hj).2.1]
            simp only [SnowflakeIdGenerator.generate]
            rw [show ((2 : Nat) ^ 16) = 65536 from rfl,
              show ((2 : Nat) ^ 12) = 4096 from rfl]
            omega
      · cases i with
        | zero =>
            simp only [SnowflakeIdGenerator.generateAll, List.getD_cons_zero]
            rw [show (g.generate now).1 = SnowflakeId.new g.machine_id now g.sequence
              from rfl, SnowflakeId.machine_id_new]
        | succ j =>
            simp only [SnowflakeIdGenerator.generateAll, List.getD_cons_succ]
            have hj : j < rest.length := by simpa using hi
            have hg : ((g.generate now).2).sequence < 2 ^ 16 :=
              Nat.mod_lt _ (by norm_num)
            rw [(ih (g := (g.generate now).2) hg j hj).2.2]
            simp [SnowflakeIdGenerator.generate]

/-- Witness for generator_sequence_machine: a generator at machine id 5,
counter 7, run twice. -/
theorem generator_sequence_machine_witness :
    (SnowflakeIdGenerator.new 5 7).sequence < 2 ^ 16 ∧ 1 < 2 ∧
    SnowflakeId.sequence (((SnowflakeIdGenerator.new 5 7).generateAll
      [1656432460105, 1656432460106]).getD 1 0) = 8 ∧
    SnowflakeId.machine_id (((SnowflakeIdGenerator.new 5 7).generateAll
      [1656432460105, 1656432460106]).getD 1 0) = 5 := by
  have h := generator_sequence_machine (SnowflakeIdGenerator.new 5 7)
    [1656432460105, 1656432460106] (by decide) 1 (by decide)
  exact ⟨by decide, by decide, h.2.1, h.2.2⟩

/-- Discriminator: is this error the invalid-state error? -/
def isInvalidState : HandlerError → Bool
  | .ReceivedMessageInInvalidState _ => true
  | _ => false

/-- C6 counterexample: with a machine id already stored, a second
initialization request whose node id is malformed ("x") is rejected with the
invalid-identity error, not the invalid-state error the claim requires —
parse_node_id runs before the already-initialized check. -/
theorem second_init_wrong_error_cex :
    (UninitHandler.handle_message ⟨some 1⟩ ⟨"c1", "n1", .Init 2 "x" []⟩).error =
      some (.InvalidMachineId "x") ∧
    Option.map isInvalidState
      (UninitHandler.handle_message ⟨some 1⟩ ⟨"c1", "n1", .Init 2 "x" []⟩).error =
      some false := by
  exact ⟨rfl, rfl⟩

/-- C6 as amended: once a first initialization succeeded, a second
initialization request emits no acknowledgment and leaves the stored machine
id unchanged; it returns the invalid-state error when its node id parses, and
the invalid-identity parse error when it does not (the parse check runs
first). -/
theorem second_init_rejected (mid : Nat) (src dest node_id : String) (msg_id : Nat)
    (ids : List String) :
    (UninitHandler.handle_message ⟨some mid⟩ ⟨src, dest, .Init msg_id node_id ids⟩).state =
      ⟨some mid⟩ ∧
    (UninitHandler.handle_message ⟨some mid⟩ ⟨src, dest, .Init msg_id node_id ids⟩).sent =
      [] ∧
    (∀ v, parse_node_id node_id = .ok v →
      (UninitHandler.handle_message ⟨some mid⟩ ⟨src, dest, .Init msg_id node_id ids⟩).error =
        some (.ReceivedMessageInInvalidState
          "uninitialized handler already received an init message")) ∧
    (∀ e, parse_node_id node_id = .error e →
      (UninitHandler.handle_message ⟨some mid⟩ ⟨src, dest, .Init msg_id node_id ids⟩).error =
        some e) := by
  cases hp : parse_node_id node_id <;>
    simp [UninitHandler.handle_message, hp]

/-- Witness for second_init_rejected: second init with the well-formed node
id "n2" after machine id 1 was stored. -/
theorem second_init_rejected_witness :
    (UninitHandler.handle_message ⟨some 1⟩ ⟨"c1", "n1", .Init 7 "n2" []⟩).state =
      ⟨some 1⟩ ∧
    (UninitHandler.handle_message ⟨some 1⟩ ⟨"c1", "n1", .Init 7 "n2" []⟩).sent = [] ∧
    (UninitHandler.handle_message ⟨some 1⟩ ⟨"c1", "n1", .Init 7 "n2" []⟩).error =
      some (.ReceivedMessageInInvalidState
        "uninitialized handler already received an init message") := by
  have h := second_init_rejected 1 "c1" "n1" "n2" 7 []
  exact ⟨h.1, h.2.1, h.2.2.1 2 rfl⟩

/-- C7 counterexample: the node id "x5", whose first character is not 'n',
is accepted: handling the init stores machine id 5 and acknowledges, where
the claim requires an invalid-identity error with nothing stored or sent. -/
theorem missing_prefix_check_cex :
    UninitHandler.new.handle_message ⟨"c1", "n5", .Init 1 "x5" []⟩ =
      ⟨⟨some 5⟩, [⟨"n5", "c1", .InitOk 1⟩], none⟩ := rfl

/-- C7 as amended: the first character of the assigned node id is skipped
without being checked against 'n'; an initialization request fails with the
invalid-identity error — emitting no acknowledgment and storing no machine
id — exactly when the id is shorter than two characters or the remainder
after the first character does not parse as a u16, and otherwise the parsed
value is stored and acknowledged whatever the first character is. -/
theorem init_parse_spec (node_id src dest : String) (msg_id : Nat) (ids : List String) :
    (node_id.length < 2 ∨ parse_u16 (node_id.data.drop 1) = none →
      UninitHandler.new.handle_message ⟨src, dest, .Init msg_id node_id ids⟩ =
        ⟨UninitHandler.new, [], some (.InvalidMachineId node_id)⟩) ∧
    (∀ v, ¬ node_id.length < 2 → parse_u16 (node_id.data.drop 1) = some v →
      UninitHandler.new.handle_message ⟨src, dest, .Init msg_id node_id ids⟩ =
        ⟨⟨some v⟩, [⟨dest, src, .InitOk msg_id⟩], none⟩) := by
  constructor
  · intro h
    have hp : parse_node_id node_id = .error (.InvalidMachineId node_id) := by
      unfold parse_node_id
      by_cases hl : node_id.length < 2
      · rw [if_pos hl]
      · rw [if_neg hl]
        rcases h with h | h
        · exact absurd h hl
        · rw [h]
    simp [UninitHandler.handle_message, hp, UninitHandler.new]
  · intro v hlen hp
    have hp' : parse_node_id node_id = .ok v := by
      unfold parse_node_id
      rw [if_neg hlen, hp]
    simp [UninitHandler.handle_message, hp', UninitHandler.new]

/-- Witness for init_parse_spec: success on "x5" (no 'n' prefix), failure on
the one-character id "n". -/
theorem init_parse_spec_witness :
    UninitHandler.new.handle_message ⟨"c1", "n5", .Init 1 "x5" []⟩ =
      ⟨⟨some 5⟩, [⟨"n5", "c1", .InitOk 1⟩], none⟩ ∧
    UninitHandler.new.handle_message ⟨"c1", "n1", .Init 3 "n" []⟩ =
      ⟨UninitHandler.new, [], some (.InvalidMachineId "n")⟩ := by
  refine ⟨(init_parse_spec "x5" "c1" "n5" 1 []).2 5 (by decide) rfl, ?_⟩
  exact (init_parse_spec "n" "c1" "n1" 3 []).1 (Or.inl (by decide))

/-- C5 counterexample: a line that fails to decode makes handle_single_line
panic (serde_json::from_str(line).unwrap()), terminating the node, instead
of reporting the failure and continuing as the claim states. -/
theorem decode_failure_panics_cex :
    handle_single_line 0 none (InitializedHandler.new 1) = .panicked := rfl

/-- C5 as amended: only decode failures are fatal; for every line that
decodes, handle_single_line never panics, and when dispatch returns an error
the error goes to the diagnostic channel while the loop continues with the
handler state unchanged and no protocol output. -/
theorem dispatch_error_confined (now : Int) (s : InitializedHandler) (m : Message) :
    handle_single_line now (some m) s ≠ .panicked ∧
    (∀ e, (InitializedHandler.handle_message now s m).error = some e →
      handle_single_line now (some m) s = .continued s []) := by
  constructor
  · simp [handle_single_line]
  · intro e he
    obtain ⟨src, dest, body⟩ := m
    cases body <;>
      simp [InitializedHandler.handle_message, handle_single_line] at he ⊢

/-- Witness for dispatch_error_confined: an init message delivered to an
initialized handler errors and the loop continues unchanged. -/
theorem dispatch_error_confined_witness :
    handle_single_line 0 (some ⟨"c1", "n1", .Init 1 "n1" ["n1"]⟩)
      (InitializedHandler.new 1) ≠ .panicked ∧
    handle_single_line 0 (some ⟨"c1", "n1", .Init 1 "n1" ["n1"]⟩)
      (InitializedHandler.new 1) = .continued (InitializedHandler.new 1) [] := by
  have h := dispatch_error_confined 0 (InitializedHandler.new 1)
    ⟨"c1", "n1", .Init 1 "n1" ["n1"]⟩
  exact ⟨h.1, h.2 (.UnprocessableMessage
    "initialized handler shouldn't accept init mesage") rfl⟩

theorem lookupA_foldl_insert_of_not_mem {α β : Type} [DecidableEq α]
    (l : List α) (m : List (α × β)) (v : β) (x : α) (hx : x ∉ l) :
    lookupA (l.foldl (fun acc k => insertA acc k v) m) x = lookupA m x := by
  induction l generalizing m with
  | nil => rfl
  | cons a t ih =>
      simp only [List.foldl_cons]
      have hxa : x ≠ a := fun h => hx (h ▸ List.mem_cons_self a t)
      rw [ih _ (fun h => hx (List.mem_cons_of_mem _ h)), lookupA_insertA_ne _ _ _ _ hxa]

theorem lookupA_foldl_insert_of_mem {α β : Type} [DecidableEq α]
    (l : List α) (m : List (α × β)) (v : β) (x : α) (hx : x ∈ l) :
    lookupA (l.foldl (fun acc k => insertA acc k v) m) x = some v := by
  induction l generalizing m with
  | nil => cases hx
  | cons a t ih =>
      simp only [List.foldl_cons]
      by_cases hxt : x ∈ t
      · exact ih _ hxt
      · have hxa : x = a := by
          rcases List.mem_cons.mp hx with h | h
          · exact h
          · exact absurd h hxt
        subst hxa
        rw [lookupA_foldl_insert_of_not_mem t _ v x hxt, lookupA_insertA_self]

theorem mem_foldl_insert {α β : Type} [DecidableEq α]
    (l : List α) (m : List (α × β)) (v : β) (p : α × β)
    (hp : p ∈ l.foldl (fun acc k => insertA acc k v) m) : p.2 = v ∨ p ∈ m := by
  induction l generalizing m with
  | nil => exact Or.inr hp
  | cons a t ih =>
      simp only [List.foldl_cons] at hp
      rcases ih _ hp with h | h
      · exact Or.inl h
      · rcases mem_insertA _ _ _ _ h with h' | h'
        · exact Or.inl (by rw [h'])
        · exact Or.inr h'

/-- Helper: handle_topology never touches the seen-messages set. -/
theorem handle_topology_messages (s : InitializedHandler)
    (topo : List (String × List String)) :
    (s.handle_topology topo).messages = s.messages := by
  unfold InitializedHandler.handle_topology
  cases lookupA topo s.node_id <;> rfl

/-- Helper: handle_topology never touches the pending table. -/
theorem handle_topology_pending (s : InitializedHandler)
    (topo : List (String × List String)) :
    (s.handle_topology topo).pending_messages_sent = s.pending_messages_sent := by
  unfold InitializedHandler.handle_topology
  cases lookupA topo s.node_id <;> rfl

/-- Helper: handle_pending_message never touches the seen-messages set. -/
theorem handle_pending_message_messages (s : InitializedHandler)
    (pm : PendingSentMessages) :
    (s.handle_pending_message pm).messages = s.messages := by
  obtain ⟨vals, dst⟩ := pm
  unfold InitializedHandler.handle_pending_message
  rcases h : lookupA s.known_messages_to_neighbors dst with _ | ks <;> simp [h]

/-- Helper: handle_response never touches the seen-messages set. -/
theorem handle_response_messages (s : InitializedHandler) (mid : Nat) :
    (s.handle_response mid).messages = s.messages := by
  unfold InitializedHandler.handle_response
  cases lookupA s.pending_messages_sent mid with
  | none => rfl
  | some pm => rw [handle_pending_message_messages]

/-- Helper: a gossip step never touches the seen-messages set. -/
theorem gossipStep_messages (acc : InitializedHandler × List Message) (nb : String) :
    (gossipStep acc nb).1.messages = acc.1.messages := by
  obtain ⟨s, out⟩ := acc
  simp only [gossipStep]
  split <;> first | rfl | (split <;> rfl)

/-- Helper: a whole gossip round never touches the seen-messages set. -/
theorem foldl_gossipStep_messages (chosen : List String)
    (acc : InitializedHandler × List Message) :
    (chosen.foldl gossipStep acc).1.messages = acc.1.messages := by
  induction chosen generalizing acc with
  | nil => rfl
  | cons a t ih => rw [List.foldl_cons, ih, gossipStep_messages]

/-- C8: a topology update carrying this node's id replaces the neighbor list
wholesale and seeds an empty knowledge entry for each delivered neighbor,
leaving entries of undelivered neighbors untouched; one lacking this node's
id changes nothing; exactly one topology_ok is emitted either way; and the
concrete n1 scenario applying topology n1 -> n2,n3 then n1 -> n4 ends with
neighbor list n4 only and a fresh empty knowledge entry for n4. -/
theorem topology_update_spec (now : Int) (s : InitializedHandler) (msg_id : Nat)
    (src dest : String) (topo : List (String × List String)) :
    (InitializedHandler.handle_message now s ⟨src, dest, .Topology msg_id topo⟩).sent =
      [⟨dest, src, .TopologyOk msg_id⟩] ∧
    (InitializedHandler.handle_message now s ⟨src, dest, .Topology msg_id topo⟩).error =
      none ∧
    (lookupA topo s.node_id = none →
      (InitializedHandler.handle_message now s ⟨src, dest, .Topology msg_id topo⟩).state =
        s) ∧
    (∀ nbs, lookupA topo s.node_id = some nbs →
      (InitializedHandler.handle_message now s
          ⟨src, dest, .Topology msg_id topo⟩).state.neighbors = nbs ∧
      (InitializedHandler.handle_message now s
          ⟨src, dest, .Topology msg_id topo⟩).state.messages = s.messages ∧
      (InitializedHandler.handle_message now s
          ⟨src, dest, .Topology msg_id topo⟩).state.pending_messages_sent =
        s.pending_messages_sent ∧
      (∀ nb, nb ∈ nbs →
        lookupA (InitializedHandler.handle_message now s
            ⟨src, dest, .Topology msg_id topo⟩).state.known_messages_to_neighbors nb =
          some ∅) ∧
      (∀ nb, nb ∉ nbs →
        lookupA (InitializedHandler.handle_message now s
            ⟨src, dest, .Topology msg_id topo⟩).state.known_messages_to_neighbors nb =
          lookupA s.known_messages_to_neighbors nb)) ∧
    ((InitializedHandler.handle_message 0
        (InitializedHandler.handle_message 0 (InitializedHandler.new 1)
          ⟨"c1", "n1", .Topology 1 [("n1", ["n2", "n3"])]⟩).state
        ⟨"c1", "n1", .Topology 2 [("n1", ["n4"])]⟩).state.neighbors = ["n4"] ∧
      lookupA (InitializedHandler.handle_message 0
        (InitializedHandler.handle_message 0 (InitializedHandler.new 1)
          ⟨"c1", "n1", .Topology 1 [("n1", ["n2", "n3"])]⟩).state
        ⟨"c1", "n1", .Topology 2 [("n1", ["n4"])]⟩).state.known_messages_to_neighbors
        "n4" = some ∅) := by
  refine ⟨rfl, rfl, ?_, ?_, by decide, by decide⟩
  · intro h
    simp [InitializedHandler.handle_message, InitializedHandler.handle_topology, h]
  · intro nbs h
    refine ⟨?_, ?_, ?_, ?_, ?_⟩
    · simp [InitializedHandler.handle_message, InitializedHandler.handle_topology, h]
    · exact handle_topology_messages s _
    · exact handle_topology_pending s _
    · intro nb hnb
      simp only [InitializedHandler.handle_message, InitializedHandler.handle_topology, h]
      exact lookupA_foldl_insert_of_mem nbs _ ∅ nb hnb
    · intro nb hnb
      simp only [InitializedHandler.handle_message, InitializedHandler.handle_topology, h]
      exact lookupA_foldl_insert_of_not_mem nbs _ ∅ nb hnb

/-- Witness for topology_update_spec: a delivered entry for node n2 and a
topology lacking n2. -/
theorem topology_update_spec_witness :
    (InitializedHandler.handle_message 0 (InitializedHandler.new 2)
      ⟨"c1", "n2", .Topology 5 [("n2", ["n7"])]⟩).state.neighbors = ["n7"] ∧
    lookupA (InitializedHandler.handle_message 0 (InitializedHandler.new 2)
      ⟨"c1", "n2", .Topology 5 [("n2", ["n7"])]⟩).state.known_messages_to_neighbors
      "n7" = some ∅ ∧
    (InitializedHandler.handle_message 0 (InitializedHandler.new 2)
      ⟨"c1", "n2", .Topology 6 [("n9", ["n7"])]⟩).state = InitializedHandler.new 2 := by
  have h1 := (topology_update_spec 0 (InitializedHandler.new 2) 5 "c1" "n2"
    [("n2", ["n7"])]).2.2.2.1 ["n7"] (by decide)
  have h2 := (topology_update_spec 0 (InitializedHandler.new 2) 6 "c1" "n2"
    [("n9", ["n7"])]).2.2.1 (by decide)
  exact ⟨h1.1, h1.2.2.2.1 "n7" (by decide), h2⟩

/-- C2: across every event an initialized node handles — any inbound message
or a gossip timer tick — the seen-messages set never shrinks; handling a
client broadcast of an already-known value leaves it unchanged, and a
subsequent read returns a set holding that value exactly once. -/
theorem seen_set_monotone :
    (∀ (now : Int) (s : InitializedHandler) (m : Message),
      s.messages ⊆ (InitializedHandler.handle_message now s m).state.messages) ∧
    (∀ (s : InitializedHandler) (chosen : List String),
      (s.handle_gossip_timer chosen).1.messages = s.messages) ∧
    (∀ (now : Int) (s : InitializedHandler) (src dest : String)
      (msg_id msg_id2 v : Nat), v ∈ s.messages →
      (InitializedHandler.handle_message now s
          ⟨src, dest, .Broadcast msg_id v⟩).state.messages = s.messages ∧
      (InitializedHandler.handle_message now
          (InitializedHandler.handle_message now s
            ⟨src, dest, .Broadcast msg_id v⟩).state
          ⟨src, dest, .Read msg_id2⟩).sent =
        [⟨dest, src, .ReadOk msg_id2 s.messages⟩] ∧
      s.messages.val.count v = 1) := by
  refine ⟨?_, ?_, ?_⟩
  · intro now s m
    obtain ⟨src, dest, body⟩ := m
    cases body with
    | Broadcast msg_id v =>
        simp only [InitializedHandler.handle_message]
        exact Finset.subset_insert v s.messages
    | Topology msg_id topo =>
        simp only [InitializedHandler.handle_message]
        rw [handle_topology_messages]
    | InformNewBroadcast msg_id vals =>
        simp only [InitializedHandler.handle_message,
          InitializedHandler.handle_inform_new_broadcast]
        rcases h : lookupA s.known_messages_to_neighbors src with _ | ks <;>
          simp only [h] <;> exact Finset.subset_union_left
    | InformNewBroadcastOk mid =>
        simp only [InitializedHandler.handle_message]
        rw [handle_response_messages]
    | Init a b c => exact subset_rfl
    | Echo a b => exact subset_rfl
    | Generate a => exact subset_rfl
    | Read a => exact subset_rfl
    | InitOk a => exact subset_rfl
    | EchoOk a b c => exact subset_rfl
    | GenerateOk a b => exact subset_rfl
    | BroadcastOk a => exact subset_rfl
    | ReadOk a b => exact subset_rfl
    | TopologyOk a => exact subset_rfl
  · intro s chosen
    exact foldl_gossipStep_messages chosen (s, [])
  · intro now s src dest msg_id msg_id2 v hv
    have hins : insert v s.messages = s.messages := Finset.insert_eq_self.mpr hv
    refine ⟨?_, ?_, Multiset.count_eq_one_of_mem s.messages.nodup hv⟩
    · simp only [InitializedHandler.handle_message]
      exact hins
    · simp only [InitializedHandler.handle_message, hins]

/-- Witness for seen_set_monotone at a node that already saw value 5. -/
theorem seen_set_monotone_witness :
    (5 : Nat) ∈ ({5} : ValueSet) ∧
    (InitializedHandler.handle_message 0
        ⟨⟨1, 0⟩, "n1", [], 0, {5}, [], []⟩
        ⟨"c1", "n1", .Broadcast 3 5⟩).state.messages = {5} ∧
    ({5} : ValueSet).val.count 5 = 1 := by
  have h := seen_set_monotone.2.2 0 ⟨⟨1, 0⟩, "n1", [], 0, {5}, [], []⟩
    "c1" "n1" 3 4 5 (by decide)
  exact ⟨by decide, h.1, h.2.2⟩

/-- C3: an inform-new-broadcast acknowledgment matching a pending gossip
record removes that record and folds its value set into the knowledge entry
of the record's destination (which exists whenever the record was created by
a gossip round), emitting nothing; an acknowledgment matching no pending
record leaves the whole state unchanged and emits nothing. -/
theorem ack_resolution (now : Int) (s : InitializedHandler) (src dest : String)
    (mid : Nat) :
    (∀ vals dst ks,
      lookupA s.pending_messages_sent mid =
        some (.InformBroadcast vals dst) →
      lookupA s.known_messages_to_neighbors dst = some ks →
      InitializedHandler.handle_message now s ⟨src, dest, .InformNewBroadcastOk mid⟩ =
        ⟨{ s with
            pending_messages_sent := removeA s.pending_messages_sent mid,
            known_messages_to_neighbors :=
              insertA s.known_messages_to_neighbors dst (ks ∪ vals) },
          [], none⟩) ∧
    (lookupA s.pending_messages_sent mid = none →
      InitializedHandler.handle_message now s ⟨src, dest, .InformNewBroadcastOk mid⟩ =
        ⟨s, [], none⟩) := by
  constructor
  · intro vals dst ks hp hk
    simp [InitializedHandler.handle_message, InitializedHandler.handle_response,
      InitializedHandler.handle_pending_message, hp, hk]
  · intro hp
    simp [InitializedHandler.handle_message, InitializedHandler.handle_response, hp]

/-- Witness for ack_resolution: a node with one pending record keyed 3 for
destination n2, acknowledged with in_reply_to 3 (hit) and 4 (miss). -/
theorem ack_resolution_witness :
    InitializedHandler.handle_message 0
        ⟨⟨1, 0⟩, "n1", ["n2"], 4, {1, 2}, [("n2", {1})],
          [(3, .InformBroadcast {2} "n2")]⟩
        ⟨"n2", "n1", .InformNewBroadcastOk 3⟩ =
      ⟨⟨⟨1, 0⟩, "n1", ["n2"], 4, {1, 2}, [("n2", {1} ∪ {2})], []⟩, [], none⟩ ∧
    InitializedHandler.handle_message 0
        ⟨⟨1, 0⟩, "n1", ["n2"], 4, {1, 2}, [("n2", {1})],
          [(3, .InformBroadcast {2} "n2")]⟩
        ⟨"n2", "n1", .InformNewBroadcastOk 4⟩ =
      ⟨⟨⟨1, 0⟩, "n1", ["n2"], 4, {1, 2}, [("n2", {1})],
          [(3, .InformBroadcast {2} "n2")]⟩, [], none⟩ := by
  constructor
  · have h := (ack_resolution 0
      ⟨⟨1, 0⟩, "n1", ["n2"], 4, {1, 2}, [("n2", {1})],
        [(3, .InformBroadcast {2} "n2")]⟩ "n2" "n1" 3).1 {2} "n2" {1} rfl rfl
    simpa using h
  · exact (ack_resolution 0
      ⟨⟨1, 0⟩, "n1", ["n2"], 4, {1, 2}, [("n2", {1})],
        [(3, .InformBroadcast {2} "n2")]⟩ "n2" "n1" 4).2 rfl

/-- Helper: gossip step for a neighbor with a knowledge entry covering the
whole seen set — nothing sent, nothing recorded, no counter move. -/
theorem gossipStep_known_skip (s : InitializedHandler) (out : List Message)
    (nb : String) (ks : ValueSet)
    (hl : lookupA s.known_messages_to_neighbors nb = some ks)
    (hd : s.messages \ ks = ∅) :
    gossipStep (s, out) nb = (s, out) := by
  simp [gossipStep, hl, hd]

/-- Helper: gossip step for an unknown neighbor when the seen set is empty —
the or_default call seeds an empty knowledge entry, nothing else happens. -/
theorem gossipStep_unknown_skip (s : InitializedHandler) (out : List Message)
    (nb : String)
    (hl : lookupA s.known_messages_to_neighbors nb = none)
    (hd : s.messages = ∅) :
    gossipStep (s, out) nb =
      ({ s with known_messages_to_neighbors :=
          insertA s.known_messages_to_neighbors nb ∅ }, out) := by
  simp [gossipStep, hl, hd]

/-- Helper: gossip step for a neighbor with a knowledge entry missing some
values — the diff is sent, recorded under the current counter, counter

incremented. -/
theorem gossipStep_known_send (s : InitializedHandler) (out : List Message)
    (nb : String) (ks : ValueSet)
    (hl : lookupA s.known_messages_to_neighbors nb = some ks)
    (hd : s.messages \ ks ≠ ∅)
    (hp : lookupA s.pending_messages_sent s.current_msg_id = none) :
    gossipStep (s, out) nb =
      ({ s with
          pending_messages_sent := insertA s.pending_messages_sent s.current_msg_id
            (.InformBroadcast (s.messages \ ks) nb),
          current_msg_id := (s.current_msg_id + 1) % 2 ^ 32 },
        out ++ [⟨s.node_id, nb, .InformNewBroadcast s.current_msg_id
          (s.messages \ ks)⟩]) := by
  simp [gossipStep, hl, hd, hp]

/-- Helper: gossip step for an unknown neighbor when the seen set is not
empty — the knowledge entry is seeded empty, everything is sent. -/
theorem gossipStep_unknown_send (s : InitializedHandler) (out : List Message)
    (nb : String)
    (hl : lookupA s.known_messages_to_neighbors nb = none)
    (hd : s.messages ≠ ∅)
    (hp : lookupA s.pending_messages_sent s.current_msg_id = none) :
    gossipStep (s, out) nb =
      ({ s with
          known_messages_to_neighbors := insertA s.known_messages_to_neighbors nb ∅,
          pending_messages_sent := insertA s.pending_messages_sent s.current_msg_id
            (.InformBroadcast s.messages nb),
          current_msg_id := (s.current_msg_id + 1) % 2 ^ 32 },
        out ++ [⟨s.node_id, nb, .InformNewBroadcast s.current_msg_id s.messages⟩]) := by
  simp [gossipStep, hl, hd, hp]

/-- C1: a gossip round selects at most 10 neighbors, chosen without
replacement from the neighbor list (pairwise distinct when the neighbor list
has no duplicates); the round folds the per-neighbor step over the chosen
list starting from the current state; and each step, at whatever state the
fold has reached, sends nothing, records nothing and keeps the counter when
the diff of the seen set against that neighbor's knowledge entry is empty,
and otherwise emits exactly one inform-new-broadcast to that neighbor
carrying exactly the diff, stores the pending record with those values and
that destination keyed by the current counter value (whose key is fresh while
the counter is monotone), and increments the counter by one (as a u32). -/
theorem gossip_round_spec (neighbors chosen : List String)
    (h : IsRandomChoice chosen neighbors) (s : InitializedHandler) :
    chosen.length ≤ NUM_RANDOM_NEIGHBORS_TO_INFORM ∧
    (neighbors.Nodup → chosen.Nodup) ∧
    s.send_inform_broadcast_to_neighbors chosen = chosen.foldl gossipStep (s, []) ∧
    (∀ (t : InitializedHandler) (out : List Message) (nb : String),
      (t.messages \ (lookupA t.known_messages_to_neighbors nb).getD ∅ = ∅ →
        (gossipStep (t, out) nb).2 = out ∧
        (gossipStep (t, out) nb).1.pending_messages_sent = t.pending_messages_sent ∧
        (gossipStep (t, out) nb).1.current_msg_id = t.current_msg_id ∧
        (gossipStep (t, out) nb).1.messages = t.messages) ∧
      (t.messages \ (lookupA t.known_messages_to_neighbors nb).getD ∅ ≠ ∅ →
        lookupA t.pending_messages_sent t.current_msg_id = none →
        (gossipStep (t, out) nb).2 = out ++
          [⟨t.node_id, nb, .InformNewBroadcast t.current_msg_id
            (t.messages \ (lookupA t.known_messages_to_neighbors nb).getD ∅)⟩] ∧
        (gossipStep (t, out) nb).1.pending_messages_sent =
          insertA t.pending_messages_sent t.current_msg_id
            (.InformBroadcast
              (t.messages \ (lookupA t.known_messages_to_neighbors nb).getD ∅) nb) ∧
        (gossipStep (t, out) nb).1.current_msg_id =
          (t.current_msg_id + 1) % 2 ^ 32)) := by
  obtain ⟨idxs, hnd, hmap, hlen⟩ := h
  refine ⟨?_, ?_, rfl, ?_⟩
  · rw [hmap, List.length_map, hlen]
    exact min_le_left _ _
  · intro hnodup
    rw [hmap]
    exact hnd.map (List.nodup_iff_injective_get.mp hnodup)
  · intro t out nb
    constructor
    · intro hd
      rcases hl : lookupA t.known_messages_to_neighbors nb with _ | ks
      · have hd' : t.messages = ∅ := by
          rw [hl] at hd
          simpa using hd
        rw [gossipStep_unknown_skip t out nb hl hd']
        exact ⟨rfl, rfl, rfl, rfl⟩
      · have hd' : t.messages \ ks = ∅ := by
          rw [hl] at hd
          simpa using hd
        rw [gossipStep_known_skip t out nb ks hl hd']
        exact ⟨rfl, rfl, rfl, rfl⟩
    · intro hd hp
      rcases hl : lookupA t.known_messages_to_neighbors nb with _ | ks
      · have hd' : t.messages ≠ ∅ := by
          rw [hl] at hd
          simpa using hd
        simp only [Option.getD_none, Finset.sdiff_empty]
        rw [gossipStep_unknown_send t out nb hl hd' hp]
        exact ⟨rfl, rfl, rfl⟩
      · have hd' : t.messages \ ks ≠ ∅ := by
          rw [hl] at hd
          simpa using hd
        simp only [Option.getD_some]
        rw [gossipStep_known_send t out nb ks hl hd' hp]
        exact ⟨rfl, rfl, rfl⟩

/-- Witness for gossip_round_spec: two neighbors, both chosen (min 10 2 = 2),
stepped at a state knowing nothing about n2 while n3 knows everything. -/
theorem gossip_round_spec_witness :
    (["n3", "n2"] : List String).length ≤ NUM_RANDOM_NEIGHBORS_TO_INFORM ∧
    (gossipStep (⟨⟨1, 0⟩, "n1", ["n2", "n3"], 0, {7}, [("n2", ∅), ("n3", {7})], []⟩,
        []) "n3").2 = [] ∧
    (gossipStep (⟨⟨1, 0⟩, "n1", ["n2", "n3"], 0, {7}, [("n2", ∅), ("n3", {7})], []⟩,
        []) "n2").2 =
      [⟨"n1", "n2", .InformNewBroadcast 0 ({7} \ (∅ : ValueSet))⟩] ∧
    (gossipStep (⟨⟨1, 0⟩, "n1", ["n2", "n3"], 0, {7}, [("n2", ∅), ("n3", {7})], []⟩,
        []) "n2").1.current_msg_id = 1 % 2 ^ 32 := by
  have hch : IsRandomChoice ["n3", "n2"] ["n2", "n3"] := by
    refine ⟨[⟨1, by norm_num⟩, ⟨0, by norm_num⟩], by decide, rfl, by decide⟩
  have h := gossip_round_spec ["n2", "n3"] ["n3", "n2"] hch
    ⟨⟨1, 0⟩, "n1", ["n2", "n3"], 0, {7}, [("n2", ∅), ("n3", {7})], []⟩
  have hskip := (h.2.2.2 ⟨⟨1, 0⟩, "n1", ["n2", "n3"], 0, {7},
    [("n2", ∅), ("n3", {7})], []⟩ [] "n3").1 (by decide)
  have hsend := (h.2.2.2 ⟨⟨1, 0⟩, "n1", ["n2", "n3"], 0, {7},
    [("n2", ∅), ("n3", {7})], []⟩ [] "n2").2 (by decide) rfl
  exact ⟨h.1, hskip.1, by simpa using hsend.1, by simpa using hsend.2.2⟩

/-- Value set carried by a pending record. -/
def PendingSentMessages.values : PendingSentMessages → ValueSet
  | .InformBroadcast messages _ => messages

/-- C10 invariant: every per-neighbor knowledge entry and every pending
record's value set is a subset of the seen-messages set. -/
def Inv (s : InitializedHandler) : Prop :=
  (∀ p ∈ s.known_messages_to_neighbors, p.2 ⊆ s.messages) ∧
  (∀ q ∈ s.pending_messages_sent, PendingSentMessages.values q.2 ⊆ s.messages)

/-- Helper: topology updates only add empty knowledge entries. -/
theorem Inv_handle_topology (s : InitializedHandler)
    (topo : List (String × List String)) (h : Inv s) :
    Inv (s.handle_topology topo) := by
  obtain ⟨hk, hp⟩ := h
  unfold InitializedHandler.handle_topology
  rcases hl : lookupA topo s.node_id with _ | nbs
  · exact ⟨hk, hp⟩
  · constructor
    · intro p hpm
      rcases mem_foldl_insert nbs _ ∅ p hpm with h' | h'
      · rw [h']
        exact Finset.empty_subset _
      · exact hk p h'
    · exact hp

/-- Helper: inbound gossip extends the seen set with exactly what it writes
into the sender's knowledge entry. -/
theorem Inv_handle_inform (s : InitializedHandler) (src : String) (mid : Nat)
    (vals : ValueSet) (h : Inv s) :
    Inv (s.handle_inform_new_broadcast src mid vals).1 := by
  obtain ⟨hk, hp⟩ := h
  simp only [InitializedHandler.handle_inform_new_broadcast]
  rcases hl : lookupA s.known_messages_to_neighbors src with _ | ks
  · constructor
    · intro p hpm
      rcases mem_insertA _ _ _ _ hpm with h' | h'
      · rw [h']
        exact Finset.subset_union_right
      · exact (hk p h').trans Finset.subset_union_left
    · intro q hq
      exact (hp q hq).trans Finset.subset_union_left
  · constructor
    · intro p hpm
      rcases mem_insertA _ _ _ _ hpm with h' | h'
      · rw [h']
        exact Finset.union_subset
          ((hk (src, ks) (lookupA_mem _ _ _ hl)).trans Finset.subset_union_left)
          Finset.subset_union_right
      · exact (hk p h').trans Finset.subset_union_left
    · intro q hq
      exact (hp q hq).trans Finset.subset_union_left

/-- Helper: folding an acknowledged record whose values are already seen
keeps the invariant. -/
theorem Inv_handle_pending (s : InitializedHandler) (pm : PendingSentMessages)
    (hval : PendingSentMessages.values pm ⊆ s.messages) (h : Inv s) :
    Inv (s.handle_pending_message pm) := by
  obtain ⟨vals, dst⟩ := pm
  obtain ⟨hk, hp⟩ := h
  have hred : s.handle_pending_message (.InformBroadcast vals dst) =
      match lookupA s.known_messages_to_neighbors dst with
      | some known_messages =>
          { s with known_messages_to_neighbors :=
              insertA s.known_messages_to_neighbors dst (known_messages ∪ vals) }
      | none =>
          { s with known_messages_to_neighbors :=
              insertA s.known_messages_to_neighbors dst ∅ } := rfl
  rw [hred]
  rcases hl : lookupA s.known_messages_to_neighbors dst with _ | ks
  · constructor
    · intro p hpm
      rcases mem_insertA _ _ _ _ hpm with h' | h'
      · rw [h']
        exact Finset.empty_subset _
      · exact hk p h'
    · exact hp
  · constructor
    · intro p hpm
      rcases mem_insertA _ _ _ _ hpm with h' | h'
      · rw [h']
        exact Finset.union_subset (hk (dst, ks) (lookupA_mem _ _ _ hl)) hval
      · exact hk p h'
    · exact hp

/-- Helper: resolving an acknowledgment keeps the invariant. -/
theorem Inv_handle_response (s : InitializedHandler) (mid : Nat) (h : Inv s) :
    Inv (s.handle_response mid) := by
  unfold InitializedHandler.handle_response
  rcases hl : lookupA s.pending_messages_sent mid with _ | pm
  · exact h
  · have hval : PendingSentMessages.values pm ⊆ s.messages :=
      h.2 (mid, pm) (lookupA_mem _ _ _ hl)
    exact Inv_handle_pending _ pm hval
      ⟨fun p hpm => h.1 p hpm, fun q hq => h.2 q (mem_removeA _ _ _ hq)⟩

/-- Helper: a gossip send with the counter's pending slot already occupied
still sends but leaves the stale record (unknown-neighbor shape). -/
theorem gossipStep_unknown_send_occupied (s : InitializedHandler)
    (out : List Message) (nb : String) (pm0 : PendingSentMessages)
    (hl : lookupA s.known_messages_to_neighbors nb = none)
    (hd : s.messages ≠ ∅)
    (hq : lookupA s.pending_messages_sent s.current_msg_id = some pm0) :
    gossipStep (s, out) nb =
      ({ s with
          known_messages_to_neighbors := insertA s.known_messages_to_neighbors nb ∅,
          current_msg_id := (s.current_msg_id + 1) % 2 ^ 32 },
        out ++ [⟨s.node_id, nb, .InformNewBroadcast s.current_msg_id s.messages⟩]) := by
  simp [gossipStep, hl, hd, hq]

/-- Helper: occupied-slot gossip send, known-neighbor shape. -/
theorem gossipStep_known_send_occupied (s : InitializedHandler)
    (out : List Message) (nb : String) (ks : ValueSet) (pm0 : PendingSentMessages)
    (hl : lookupA s.known_messages_to_neighbors nb = some ks)
    (hd : s.messages \ ks ≠ ∅)
    (hq : lookupA s.pending_messages_sent s.current_msg_id = some pm0) :
    gossipStep (s, out) nb =
      ({ s with current_msg_id := (s.current_msg_id + 1) % 2 ^ 32 },
        out ++ [⟨s.node_id, nb, .InformNewBroadcast s.current_msg_id
          (s.messages \ ks)⟩]) := by
  simp [gossipStep, hl, hd, hq]

/-- Helper: one gossip step keeps the invariant. -/
theorem Inv_gossipStep (s : InitializedHandler) (out : List Message)
    (nb : String) (h : Inv s) : Inv (gossipStep (s, out) nb).1 := by
  obtain ⟨hk, hp⟩ := h
  have hseed : ∀ p, p ∈ insertA s.known_messages_to_neighbors nb ∅ →
      p.2 ⊆ s.messages := by
    intro p hpm
    rcases mem_insertA _ _ _ _ hpm with h' | h'
    · rw [h']
      exact Finset.empty_subset _
    · exact hk p h'
  rcases hl : lookupA s.known_messages_to_neighbors nb with _ | ks
  · by_cases hd : s.messages = ∅
    · rw [gossipStep_unknown_skip s out nb hl hd]
      exact ⟨hseed, hp⟩
    · rcases hq : lookupA s.pending_messages_sent s.current_msg_id with _ | pm0
      · rw [gossipStep_unknown_send s out nb hl hd hq]
        refine ⟨hseed, ?_⟩
        intro q hq2
        rcases mem_insertA _ _ _ _ hq2 with h' | h'
        · rw [h']
          exact subset_rfl
        · exact hp q h'
      · rw [gossipStep_unknown_send_occupied s out nb pm0 hl hd hq]
        exact ⟨hseed, hp⟩
  · by_cases hd : s.messages \ ks = ∅
    · rw [gossipStep_known_skip s out nb ks hl hd]
      exact ⟨hk, hp⟩
    · rcases hq : lookupA s.pending_messages_sent s.current_msg_id with _ | pm0
      · rw [gossipStep_known_send s out nb ks hl hd hq]
        refine ⟨hk, ?_⟩
        intro q hq2
        rcases mem_insertA _ _ _ _ hq2 with h' | h'
        · rw [h']
          exact Finset.sdiff_subset
        · exact hp q h'
      · rw [gossipStep_known_send_occupied s out nb ks pm0 hl hd hq]
        exact ⟨hk, hp⟩

/-- Helper: a whole gossip round keeps the invariant. -/
theorem Inv_foldl_gossip (chosen : List String)
    (acc : InitializedHandler × List Message) (h : Inv acc.1) :
    Inv (chosen.foldl gossipStep acc).1 := by
  induction chosen generalizing acc with
  | nil => exact h
  | cons a t ih =>
      rw [List.foldl_cons]
      obtain ⟨s, out⟩ := acc
      exact ih _ (Inv_gossipStep s out a h)

/-- C10: every operation of the initialized node — every inbound message and
every gossip timer tick — preserves the invariant that each per-neighbor
knowledge entry and each pending gossip record's value set is a subset of
the seen-messages set. -/
theorem knowledge_pending_subset_invariant :
    (∀ (now : Int) (s : InitializedHandler) (m : Message),
      Inv s → Inv (InitializedHandler.handle_message now s m).state) ∧
    (∀ (s : InitializedHandler) (chosen : List String),
      Inv s → Inv (s.handle_gossip_timer chosen).1) := by
  constructor
  · intro now s m h
    obtain ⟨src, dest, body⟩ := m
    cases body with
    | Init a b c => exact h
    | Echo a b => exact h
    | Generate a => exact h
    | Broadcast msg_id v =>
        exact ⟨fun p hpm => (h.1 p hpm).trans (Finset.subset_insert _ _),
          fun q hq => (h.2 q hq).trans (Finset.subset_insert _ _)⟩
    | Read a => exact h
    | Topology msg_id topo => exact Inv_handle_topology s topo h
    | InitOk a => exact h
    | EchoOk a b c => exact h
    | GenerateOk a b => exact h
    | BroadcastOk a => exact h
    | ReadOk a b => exact h
    | TopologyOk a => exact h
    | InformNewBroadcast mid vals => exact Inv_handle_inform s src mid vals h
    | InformNewBroadcastOk irt => exact Inv_handle_response s irt h
  · intro s chosen h
    exact Inv_foldl_gossip chosen (s, []) h

/-- Witness for knowledge_pending_subset_invariant: a node with one known
value, an up-to-date knowledge entry and one pending record, receiving a
gossip push and running a timer round. -/
theorem knowledge_pending_subset_invariant_witness :
    Inv (InitializedHandler.handle_message 0
      ⟨⟨1, 0⟩, "n1", ["n2"], 1, {5}, [("n2", {5})], [(0, .InformBroadcast {5} "n2")]⟩
      ⟨"n3", "n1", .InformNewBroadcast 9 {6}⟩).state ∧
    Inv ((⟨⟨1, 0⟩, "n1", ["n2"], 1, {5}, [("n2", {5})],
      [(0, .InformBroadcast {5} "n2")]⟩ :
        InitializedHandler).handle_gossip_timer ["n2", "n3"]).1 := by
  have hInv : Inv ⟨⟨1, 0⟩, "n1", ["n2"], 1, {5}, [("n2", {5})],
      [(0, .InformBroadcast {5} "n2")]⟩ := by
    constructor
    · intro p hpm
      rcases List.mem_singleton.mp hpm with rfl
      exact subset_rfl
    · intro q hq
      rcases List.mem_singleton.mp hq with rfl
      exact subset_rfl
  exact ⟨knowledge_pending_subset_invariant.1 0 _ _ hInv,
    knowledge_pending_subset_invariant.2 _ ["n2", "n3"] hInv⟩

end DistSys
